/-
Verification of the `Vertex` dataset module (deeplytough/datasets/vertex.py)
against its natural-language specification.

The Python module is shallowly embedded below.  Conventions of the embedding:

* Python floats appearing as matcher scores are modelled by `PyFloat`:
  an exact rational for a finite float, plus markers for NaN and the two
  infinities.  The evaluator only filters scores by finiteness
  (`np.isfinite`) and compares finite scores with `max`, so the ordering
  of exact rationals is a faithful model of that fragment.
* Fallible Python operations (list/str indexing, `int(...)` parsing,
  `max([])`, `assert`) are modelled in the `Except String` monad, the
  error string recording the Python exception raised.
* External collaborators excluded by the spec (the pocket extractor, the
  featurizer, the matcher, sklearn metric curves, `get_clusters`,
  `ToughM1`) are opaque parameters; the evaluator embedding returns the
  `(pairs, pos_mask, scores)` data that the module feeds to the metric
  library calls.
* String primitives (`split`, `lower`, slicing, comparison, `int`
  parsing) are given explicit character-list implementations (`pySplitTab`,
  `pyLower`, `pyTake`, `pyStrLt`, `pyIntStr`) so that every definition
  computes by kernel reduction; `lower` uses the ASCII case mapping (PDB
  codes and the metadata fields involved are ASCII).
* Python `dict`/`set` iteration order: dicts preserve insertion order
  (modelled by association lists with append-at-end insertion); `set`
  iteration order is arbitrary and is modelled by first-insertion order,
  which no claim depends on.
-/
import Mathlib

namespace Vertex

/-- Python `a < b` on single characters: comparison of code points. -/
def charLt (a b : Char) : Bool := a.toNat < b.toNat

/-- Python `a < b` on strings as lists of characters: lexicographic
comparison by code point, a proper prefix being smaller. -/
def charListLt : List Char → List Char → Bool
  | _, [] => false
  | [], _ :: _ => true
  | a :: as, b :: bs =>
    if charLt a b then true else if charLt b a then false else charListLt as bs

/-- Python `a < b` on strings. -/
def pyStrLt (a b : String) : Bool := charListLt a.data b.data

/-- Python `line.split('\t')` on the character list: split at every tab, with
no collapsing of adjacent separators (`''.split('\t') == ['']`). -/
def splitTabChars : List Char → List (List Char)
  | [] => [[]]
  | c :: rest =>
    match splitTabChars rest, decide (c = Char.ofNat 9) with
    | r, true => [] :: r
    | [], false => [[c]]
    | h :: t, false => (c :: h) :: t

/-- Python `line.split('\t')`. -/
def pySplitTab (s : String) : List String :=
  (splitTabChars s.data).map (fun l => String.mk l)

/-- Python `s.lower()` (ASCII case mapping; the codes involved are
ASCII). -/
def pyLower (s : String) : String := String.mk (s.data.map Char.toLower)

/-- Python slicing `s[:n]` (clamped at the string's length, like
Python). -/
def pyTake (s : String) (n : Nat) : String := String.mk (s.data.take n)

/-- Decimal digit-string parsing for `int(...)`: all characters must be
ASCII digits and there must be at least one (digit-group underscores,
which the class-label field never contains, are not modelled). -/
def parseDigits : List Char → Option Nat
  | [] => none
  | l => l.foldlM (fun acc c => if c.isDigit then some (acc * 10 + (c.toNat - 48)) else none) 0

/-- Python `int(s)`: strip surrounding whitespace (so the trailing
newline kept by `readlines` is harmless), then an optional sign and a
non-empty digit string. -/
def pyIntStr (s : String) : Option Int :=
  let t := ((s.data.dropWhile Char.isWhitespace).reverse.dropWhile Char.isWhitespace).reverse
  match t with
  | Char.ofNat 45 :: rest => (parseDigits rest).map (fun n => -(n : Int))
  | Char.ofNat 43 :: rest => (parseDigits rest).map (fun n => (n : Int))
  | rest => (parseDigits rest).map (fun n => (n : Int))

/-- Model of a Python float as it is used by the evaluator: an exact
rational for a finite value, or one of the non-finite values. -/
inductive PyFloat where
  | fin (q : ℚ)
  | nan
  | posInf
  | negInf
  deriving DecidableEq, Repr

/-- The finiteness test `np.isfinite`. -/
def PyFloat.isFinite : PyFloat → Bool
  | .fin _ => true
  | _ => false

/-- Python list indexing `l[n]` for a list of strings: `IndexError` when
out of range (negative indices are not used at these call sites). -/
def pyGet (l : List String) (n : Nat) : Except String String :=
  match l.get? n with
  | some t => .ok t
  | none => .error "IndexError: list index out of range"

/-- Python string indexing `s[n]`: `IndexError` when out of range. -/
def pyCharAt (s : String) (n : Nat) : Except String Char :=
  match s.data.get? n with
  | some c => .ok c
  | none => .error "IndexError: string index out of range"

/-- Python `int(s)` on a one-character string, as used for the pocket
index digit: the digit value for an ASCII digit, `ValueError` otherwise. -/
def pyIntChar (c : Char) : Except String Nat :=
  if c.isDigit then .ok (c.toNat - 48) else .error "ValueError: invalid literal for int()"

/-- Python `int(s)` as used for the class label: strips surrounding
whitespace (so the trailing newline kept by `readlines` is harmless) and
parses an optionally signed decimal integer. -/
def pyInt (s : String) : Except String Int :=
  match pyIntStr s with
  | some n => .ok n
  | none => .error "ValueError: invalid literal for int()"

/-- Python `set.add` on a set modelled as a duplicate-free list with
first-insertion order. -/
def setAdd {α : Type} [DecidableEq α] (l : List α) (x : α) : List α :=
  if x ∈ l then l else l ++ [x]

/-- Python `dict` lookup on a dict modelled as an association list. -/
def findVal {α : Type} (k : String × String) : List ((String × String) × α) → Option α
  | [] => none
  | (k2, v) :: rest => if k2 = k then some v else findVal k rest

/-- One structure entry of the Vertex manifest (the dict built by
`Vertex.get_structures`).  `seqclust` is `none` when the
`fit_to_tough_clusters` option is off. -/
structure SEntry where
  protein : String
  pocket : String
  ligand : String
  protein_htmd : String
  code5 : String
  code : String
  uniprot : String
  seqclust : Option String := none
  deriving DecidableEq, Repr, Inhabited

/-- The two `(code, uniprot)` tuples a data line of `protein_pairs.tsv`
contributes to the `vertex_pdbs` set:
`(tokens[0].lower(), tokens[2])` and `(tokens[5].lower(), tokens[7])`
with `tokens = line.split('\t')`. -/
def lineTuples (line : String) : Except String (List (String × String)) := do
  let tokens := pySplitTab line
  let t0 ← pyGet tokens 0
  let t2 ← pyGet tokens 2
  let t5 ← pyGet tokens 5
  let t7 ← pyGet tokens 7
  .ok [(pyLower t0, t2), (pyLower t5, t7)]

/-- The loop accumulating `vertex_pdbs`: both tuples of every data line
are added to the set. -/
def vertexPdbsAux (acc : List (String × String)) :
    List String → Except String (List (String × String))
  | [] => .ok acc
  | line :: rest => do
    let ts ← lineTuples line
    vertexPdbsAux (ts.foldl setAdd acc) rest

/-- The `vertex_pdbs` set built by `get_structures`: the first two lines
of the metadata file are headers (`if i > 1`), every later line
contributes its two `(code, uniprot)` tuples. -/
def vertexPdbs (lines : List String) : Except String (List (String × String)) :=
  vertexPdbsAux [] (lines.drop 2)

/-- The entry dict built for one `(code5, uniprot)` tuple: paths are
derived from `pdb_code = code5[:4]` and the digit `int(code5[5])`
(string index 5, i.e. the sixth character). -/
def entryFor (root npz_root : String) (t : String × String) : Except String SEntry := do
  let code5 := t.1
  let pdb_code := pyTake code5 4
  let c ← pyCharAt code5 5
  let n ← pyIntChar c
  .ok {
    protein := root ++ "/" ++ pdb_code ++ "/" ++ pdb_code ++ "_clean.pdb"
    pocket := root ++ "/" ++ pdb_code ++ "/" ++ pdb_code ++ "_site_" ++ toString n ++ ".pdb"
    ligand := root ++ "/" ++ pdb_code ++ "/" ++ pdb_code ++ "_lig_" ++ toString n ++ ".pdb"
    protein_htmd := npz_root ++ "/" ++ pdb_code ++ "/" ++ pdb_code ++ "_clean.npz"
    code5 := code5
    code := pdb_code
    uniprot := t.2
    seqclust := none }

/-- The entry-building loop of `get_structures` (the `fit` branch never
reaches it, see `get_structures`). -/
def entriesFor (root npz_root : String) :
    List (String × String) → Except String (List SEntry)
  | [] => .ok []
  | t :: rest => do
    let e ← entryFor root npz_root t
    let es ← entriesFor root npz_root rest
    .ok (e :: es)

/-- The manifest builder `Vertex.get_structures`.  `lines` is `f.readlines()` of
`protein_pairs.tsv`; `root` and `npz_root` are the two directories
derived from the environment.  When `fit_to_tough_clusters` is set the
source evaluates `[e['code5'] for e in vertex_pdbs]`, but the elements
of `vertex_pdbs` are `(str, str)` tuples, so indexing the first element
with the string key raises `TypeError` whenever the set is non-empty
(and when it is empty, the per-entry line
`entry['seqclust'] = code5_to_seqclust['code5']` — note the literal
string key — is never reached since there are no entries). -/
def get_structures (root npz_root : String) (lines : List String)
    (fit_to_tough_clusters : Bool) : Except String (List SEntry) := do
  let vertex_pdbs ← vertexPdbs lines
  if fit_to_tough_clusters && !vertex_pdbs.isEmpty then
    .error "TypeError: tuple indices must be integers or slices, not str"
  else
    entriesFor root npz_root vertex_pdbs

/-- The fields of one data line as parsed by `evaluate_matching`:
`pdb1, id1, pdb2, id2, cls =
 tokens[0].lower(), tokens[2], tokens[5].lower(), tokens[7], int(tokens[-1])`. -/
structure ParsedLine where
  pdb1 : String
  id1 : String
  pdb2 : String
  id2 : String
  cls : Int
  deriving DecidableEq, Repr

/-- Parse one data line of `protein_pairs.tsv` inside `evaluate_matching`.
`tokens[-1]` is the last token (`split` always returns a non-empty list). -/
def parseLine (line : String) : Except String ParsedLine := do
  let tokens := pySplitTab line
  let t0 ← pyGet tokens 0
  let t2 ← pyGet tokens 2
  let t5 ← pyGet tokens 5
  let t7 ← pyGet tokens 7
  let cls ← pyInt (tokens.getLastD "")
  .ok ⟨pyLower t0, t2, pyLower t5, t7, cls⟩

/-- The bucket key: `(id1, id2) if id1 < id2 else (id2, id1)`. -/
def orderedKey (id1 id2 : String) : String × String :=
  if pyStrLt id1 id2 then (id1, id2) else (id2, id1)

/-- The index `target_dict = {d['code5']: i for i, d in enumerate(descriptor_entries)}`:
for duplicated codes the later index overwrites the earlier one. -/
def targetDictAux : List SEntry → Nat → String → Option Nat
  | [], _, _ => none
  | d :: rest, i, c =>
    match targetDictAux rest (i + 1) c with
    | some j => some j
    | none => if d.code5 = c then some i else none

/-- Lookup of a code in `target_dict` (`none` models `not in target_dict`). -/
def targetDict (descriptor_entries : List SEntry) (c : String) : Option Nat :=
  targetDictAux descriptor_entries 0 c

/-- The `defaultdict` update `prot_pairs[key] = prot_pairs[key] + [pair]`:
append to the existing bucket, or create a new bucket at the end
(Python dicts preserve insertion order). -/
def updAssoc (m : List ((String × String) × List (Nat × Nat)))
    (k : String × String) (p : Nat × Nat) : List ((String × String) × List (Nat × Nat)) :=
  match m with
  | [] => [(k, [p])]
  | (k2, v) :: rest => if k2 = k then (k2, v ++ [p]) :: rest else (k2, v) :: updAssoc rest k p

/-- The mutable state of the line-reading loop of `evaluate_matching`. -/
structure EvalState where
  prot_pairs : List ((String × String) × List (Nat × Nat))
  prot_positives : List ((String × String) × Bool)
  deriving DecidableEq, Repr

/-- The body of the line-reading loop of `evaluate_matching` for one data
line: parse the fields, skip the line unless both codes are in
`target_dict`, extend the key's bucket, and record the label
`cls == 1` — with `assert prot_positives[key] == (cls == 1)` when the
key has been seen before. -/
def procLine (td : String → Option Nat) (st : EvalState) (line : String) :
    Except String EvalState := do
  let pl ← parseLine line
  match td pl.pdb1, td pl.pdb2 with
  | some i1, some i2 =>
    let key := orderedKey pl.id1 pl.id2
    let pp := updAssoc st.prot_pairs key (i1, i2)
    match findVal key st.prot_positives with
    | some b =>
      if b = (pl.cls == 1) then .ok ⟨pp, st.prot_positives⟩
      else .error "AssertionError"
    | none => .ok ⟨pp, st.prot_positives ++ [(key, pl.cls == 1)]⟩
  | _, _ => .ok st

/-- The line-reading loop over the tail of the line list. -/
def processLinesAux (td : String → Option Nat) (st : EvalState) :
    List String → Except String EvalState
  | [] => .ok st
  | line :: rest => do
    let st2 ← procLine td st line
    processLinesAux td st2 rest

/-- The whole line-reading loop of `evaluate_matching`: the first two
lines are headers (`if i > 1`). -/
def processLines (td : String → Option Nat) (lines : List String) :
    Except String EvalState :=
  processLinesAux td ⟨[], []⟩ (lines.drop 2)

/-- The matcher collaborator: `matcher.complete_match(entries)` returns a
square score matrix over the given entries, modelled as a function from
the entry list and two matrix indices to a score. -/
def Matcher : Type :=
  List SEntry → Nat → Nat → PyFloat

/-- The list `unique_idxs = list(set([p[0] for p in pdb_pairs] + [p[1] for p in pdb_pairs]))`
(set iteration order modelled as first-insertion order; the selected
multiset of scores does not depend on it). -/
def uniqueIdxs (pdb_pairs : List (Nat × Nat)) : List Nat :=
  (pdb_pairs.map Prod.fst ++ pdb_pairs.map Prod.snd).foldl setAdd []

/-- Python `list.index` (first occurrence; every index queried below is a
member, so the out-of-range fallback is never reached). -/
def idxOf : List Nat → Nat → Nat
  | [], _ => 0
  | y :: rest, x => if y = x then 0 else idxOf rest x + 1

/-- The matcher scores selected for one key, before the finiteness
filter: for each pair in the bucket, the entry
`complete_scores[unique_idxs.index(pair[0]), unique_idxs.index(pair[1])]`
of the matrix returned for `[descriptor_entries[i] for i in unique_idxs]`. -/
def rawSelScores (matcher : Matcher) (descriptor_entries : List SEntry)
    (pdb_pairs : List (Nat × Nat)) : List PyFloat :=
  let u := uniqueIdxs pdb_pairs
  let cs := matcher (u.map (fun i => descriptor_entries.getD i default))
  pdb_pairs.map (fun p => cs (idxOf u p.1) (idxOf u p.2))

/-- The finiteness filter building `sel_scores`: only scores with
`np.isfinite` are kept (their rational values). -/
def finiteValues (l : List PyFloat) : List ℚ :=
  l.filterMap (fun s => match s with | .fin q => some q | _ => none)

/-- Python `max` over a list: `ValueError` on the empty list, otherwise
the maximum. -/
def pyMax (l : List ℚ) : Except String ℚ :=
  match l with
  | [] => .error "ValueError: max() arg is an empty sequence"
  | x :: xs => .ok (xs.foldl max x)

/-- The aggregated score recorded for one key:
`max(sel_scores)` where `sel_scores` filters the selected scores by
finiteness. -/
def keyScore (matcher : Matcher) (descriptor_entries : List SEntry)
    (pdb_pairs : List (Nat × Nat)) : Except String ℚ :=
  pyMax (finiteValues (rawSelScores matcher descriptor_entries pdb_pairs))

/-- The per-key evaluation loop: for each bucket in insertion order,
record `(key, prot_positives[key], max(sel_scores))`.  The key is always
present in `prot_positives` (it is recorded whenever the bucket is
touched), so the `getD false` fallback is never reached. -/
def evalKeys (matcher : Matcher) (descriptor_entries : List SEntry)
    (positives : List ((String × String) × Bool)) :
    List ((String × String) × List (Nat × Nat)) →
      Except String (List ((String × String) × Bool × ℚ))
  | [] => .ok []
  | (key, prs) :: rest => do
    let sc ← keyScore matcher descriptor_entries prs
    let tail ← evalKeys matcher descriptor_entries positives rest
    .ok ((key, (findVal key positives).getD false, sc) :: tail)

/-- The evaluator `Vertex.evaluate_matching` up to the data handed to the metric
library calls: the list of `(key, label, aggregated score)` triples
(`pairs`, `pos_mask`, `scores` of the result dict).  The sklearn curve
computations and `voc_ap` are collaborators excluded by the spec. -/
def evaluate_matching (descriptor_entries : List SEntry) (lines : List String)
    (matcher : Matcher) : Except String (List ((String × String) × Bool × ℚ)) := do
  let st ← processLines (targetDict descriptor_entries) lines
  evalKeys matcher descriptor_entries st.prot_positives st.prot_pairs

/-- The worker `Vertex._download_pdb_and_extract_pocket`, with the side-effecting
body (makedirs, download, pocket extraction) abstracted as a fallible
collaborator: the worker catches every exception, logs the two warning
records, and returns the entry's code either way. -/
def download_pdb_and_extract_pocket (body : SEntry → Except String Unit)
    (entry : SEntry) : String × List String :=
  match body entry with
  | .ok _ => (entry.code, [])
  | .error e => (entry.code, ["WARNING: NOT FOUND " ++ entry.code, "EXCEPTION: " ++ e])

/-- One observable event of `preprocess_once`: a worker task finishing
(with its returned code and emitted log records), or the single
featurizer invocation with its entry list and `skip_existing` flag. -/
inductive PEvent where
  | workerDone (code : String) (logs : List String)
  | featurize (structures : List SEntry) (skip : Bool)
  deriving DecidableEq, Repr

/-- Whether an event is the featurizer invocation. -/
def isFeaturize : PEvent → Bool
  | .featurize _ _ => true
  | _ => false

/-- The driver `Vertex.preprocess_once` as its sequence of observable events:
`executor.map` runs one worker per structure entry and the driver blocks
until all are done, then `htmd_featurizer(self.get_structures(),
skip_existing=True)` is called once.  `structures` stands for the value
of `self.get_structures()` (a pure read of the metadata file, so both
calls return the same list). -/
def preprocess_trace (body : SEntry → Except String Unit)
    (structures : List SEntry) : List PEvent :=
  structures.map (fun s =>
    PEvent.workerDone (download_pdb_and_extract_pocket body s).1
      (download_pdb_and_extract_pocket body s).2)
  ++ [PEvent.featurize structures true]

/-- Modelled from the spec: `htmd_featurizer` (defined in
`misc/utils.py`, which is not under `src/`) — per §4.2 and §6 it
computes cached feature files for the given entries and, when
`skip_existing` is set, skips entries whose cached feature file already
exists.  We model the list of entries it does featurization work for,
given the set of already-cached feature files. -/
def htmd_featurizer_work (structures : List SEntry) (cache : List String)
    (skip : Bool) : List SEntry :=
  structures.filter (fun e => !(skip && cache.contains e.protein_htmd))

instance exceptDecEq {ε α : Type} [DecidableEq ε] [DecidableEq α] :
    DecidableEq (Except ε α) := fun a b =>
  match a, b with
  | .ok x, .ok y =>
    match decEq x y with
    | isTrue h => isTrue (by rw [h])
    | isFalse h => isFalse (fun hh => h (by cases hh; rfl))
  | .error x, .error y =>
    match decEq x y with
    | isTrue h => isTrue (by rw [h])
    | isFalse h => isFalse (fun hh => h (by cases hh; rfl))
  | .ok _, .error _ => isFalse (fun hh => by cases hh)
  | .error _, .ok _ => isFalse (fun hh => by cases hh)

theorem setAdd_mem {α : Type} [DecidableEq α] (l : List α) (x y : α) :
    y ∈ setAdd l x ↔ y ∈ l ∨ y = x := by
  unfold setAdd
  by_cases h : x ∈ l
  · simp only [if_pos h]
    constructor
    · exact fun hy => Or.inl hy
    · rintro (hy | hy)
      · exact hy
      · rw [hy]; exact h
  · simp [h]

theorem setAdd_nodup {α : Type} [DecidableEq α] (l : List α) (x : α) (h : l.Nodup) :
    (setAdd l x).Nodup := by
  unfold setAdd
  by_cases hx : x ∈ l
  · simp only [if_pos hx]; exact h
  · simp only [if_neg hx]
    simp [List.nodup_append, h, hx]

theorem mem_foldl_setAdd {α : Type} [DecidableEq α] (ts : List α) (acc : List α) (y : α) :
    y ∈ ts.foldl setAdd acc ↔ y ∈ acc ∨ y ∈ ts := by
  induction ts generalizing acc with
  | nil => simp
  | cons t rest ih =>
    simp only [List.foldl_cons, ih, setAdd_mem, List.mem_cons]
    tauto

theorem nodup_foldl_setAdd {α : Type} [DecidableEq α] (ts : List α) (acc : List α)
    (h : acc.Nodup) : (ts.foldl setAdd acc).Nodup := by
  induction ts generalizing acc with
  | nil => exact h
  | cons t rest ih => exact ih _ (setAdd_nodup _ _ h)

theorem vertexPdbsAux_mem (ls : List String) (acc s : List (String × String))
    (h : vertexPdbsAux acc ls = .ok s) (y : String × String) :
    y ∈ s ↔ y ∈ acc ∨ ∃ line ∈ ls, ∃ ts, lineTuples line = .ok ts ∧ y ∈ ts := by
  induction ls generalizing acc with
  | nil =>
    simp only [vertexPdbsAux] at h
    cases h
    simp
  | cons line rest ih =>
    cases hl : lineTuples line with
    | error e => simp only [vertexPdbsAux, bind, Except.bind, hl] at h; cases h
    | ok ts =>
      simp only [vertexPdbsAux, bind, Except.bind, hl] at h
      rw [ih _ h, mem_foldl_setAdd]
      constructor
      · rintro (h1 | h2)
        · rcases h1 with h1 | h1
          · exact Or.inl h1
          · exact Or.inr ⟨line, by simp, ts, hl, h1⟩
        · rcases h2 with ⟨l2, hl2, ts2, hts2, hy⟩
          exact Or.inr ⟨l2, by simp [hl2], ts2, hts2, hy⟩
      · rintro (h1 | ⟨l2, hl2, ts2, hts2, hy⟩)
        · exact Or.inl (Or.inl h1)
        · rcases List.mem_cons.mp hl2 with rfl | hl2
          · rw [hl] at hts2; cases hts2; exact Or.inl (Or.inr hy)
          · exact Or.inr ⟨l2, hl2, ts2, hts2, hy⟩

theorem vertexPdbsAux_nodup (ls : List String) (acc s : List (String × String))
    (hn : acc.Nodup) (h : vertexPdbsAux acc ls = .ok s) : s.Nodup := by
  induction ls generalizing acc with
  | nil =>
    simp only [vertexPdbsAux] at h
    cases h
    exact hn
  | cons line rest ih =>
    cases hl : lineTuples line with
    | error e => simp only [vertexPdbsAux, bind, Except.bind, hl] at h; cases h
    | ok ts =>
      simp only [vertexPdbsAux, bind, Except.bind, hl] at h
      exact ih _ (nodup_foldl_setAdd _ _ hn) h

theorem entriesFor_ok (root npz : String) (ts : List (String × String)) (es : List SEntry)
    (h : entriesFor root npz ts = .ok es) :
    es.length = ts.length ∧ ∀ k t, ts.get? k = some t →
      ∃ e, es.get? k = some e ∧ entryFor root npz t = .ok e := by
  induction ts generalizing es with
  | nil =>
    simp only [entriesFor] at h
    cases h
    simp
  | cons t rest ih =>
    simp only [entriesFor, bind, Except.bind] at h
    cases he : entryFor root npz t with
    | error e => rw [he] at h; cases h
    | ok e =>
      rw [he] at h
      cases hr : entriesFor root npz rest with
      | error e2 => rw [hr] at h; cases h
      | ok tail =>
        rw [hr] at h
        cases h
        rcases ih tail hr with ⟨hlen, hspec⟩
        refine ⟨by simp [hlen], fun k => ?_⟩
        match k with
        | 0 =>
          intro t2 ht2
          simp only [List.get?] at ht2
          cases ht2
          exact ⟨e, rfl, he⟩
        | k + 1 =>
          intro t2 ht2
          exact hspec k t2 ht2

theorem mem_finiteValues (l : List PyFloat) (x : ℚ) :
    x ∈ finiteValues l ↔ PyFloat.fin x ∈ l := by
  simp only [finiteValues, List.mem_filterMap]
  constructor
  · rintro ⟨a, ha, hfa⟩
    cases a with
    | fin q => cases hfa; exact ha
    | nan => cases hfa
    | posInf => cases hfa
    | negInf => cases hfa
  · intro hx
    exact ⟨PyFloat.fin x, hx, rfl⟩

theorem le_foldl_max (x : ℚ) (xs : List ℚ) : x ≤ xs.foldl max x := by
  induction xs generalizing x with
  | nil => exact le_refl x
  | cons y ys ih => exact le_trans (le_max_left x y) (ih (max x y))

theorem foldl_max_mem (x : ℚ) (xs : List ℚ) : xs.foldl max x = x ∨ xs.foldl max x ∈ xs := by
  induction xs generalizing x with
  | nil => exact Or.inl rfl
  | cons y ys ih =>
    rcases ih (max x y) with h | h
    · rcases max_choice x y with hm | hm
      · exact Or.inl (by rw [List.foldl_cons, h, hm])
      · exact Or.inr (by rw [List.foldl_cons, h, hm]; exact List.mem_cons_self y ys)
    · exact Or.inr (by rw [List.foldl_cons]; exact List.mem_cons_of_mem y h)

theorem mem_le_foldl_max (x y : ℚ) (xs : List ℚ) (h : y ∈ xs) : y ≤ xs.foldl max x := by
  induction xs generalizing x with
  | nil => cases h
  | cons z zs ih =>
    rcases List.mem_cons.mp h with rfl | h2
    · exact le_trans (le_max_right x y) (le_foldl_max _ zs)
    · exact ih (max x z) h2

theorem pyMax_ok (l : List ℚ) (q : ℚ) (h : pyMax l = .ok q) :
    q ∈ l ∧ ∀ x ∈ l, x ≤ q := by
  cases l with
  | nil => cases h
  | cons x xs =>
    simp only [pyMax] at h
    cases h
    constructor
    · rcases foldl_max_mem x xs with h | h
      · rw [h]; exact List.mem_cons_self x xs
      · exact List.mem_cons_of_mem x h
    · intro y hy
      rcases List.mem_cons.mp hy with rfl | h2
      · exact le_foldl_max y xs
      · exact mem_le_foldl_max x y xs h2

theorem evalKeys_ok (m : Matcher) (des : List SEntry)
    (pos : List ((String × String) × Bool))
    (l : List ((String × String) × List (Nat × Nat)))
    (res : List ((String × String) × Bool × ℚ))
    (h : evalKeys m des pos l = .ok res) :
    res.length = l.length ∧ ∀ k kp, l.get? k = some kp →
      ∃ sc, keyScore m des kp.2 = .ok sc ∧
        res.get? k = some (kp.1, (findVal kp.1 pos).getD false, sc) := by
  induction l generalizing res with
  | nil =>
    simp only [evalKeys] at h
    cases h
    simp
  | cons kp0 rest ih =>
    rcases kp0 with ⟨key, prs⟩
    simp only [evalKeys, bind, Except.bind] at h
    cases hsc : keyScore m des prs with
    | error e => rw [hsc] at h; cases h
    | ok sc =>
      rw [hsc] at h
      cases ht : evalKeys m des pos rest with
      | error e2 => rw [ht] at h; cases h
      | ok tail =>
        rw [ht] at h
        cases h
        rcases ih tail ht with ⟨hlen, hspec⟩
        refine ⟨by simp [hlen], fun k => ?_⟩
        match k with
        | 0 =>
          intro kp hkp
          simp only [List.get?] at hkp
          cases hkp
          exact ⟨sc, hsc, rfl⟩
        | k + 1 =>
          intro kp hkp
          exact hspec k kp hkp

theorem evalKeys_not_ok (m : Matcher) (des : List SEntry)
    (pos : List ((String × String) × Bool))
    (l : List ((String × String) × List (Nat × Nat)))
    (key : String × String) (prs : List (Nat × Nat)) (e : String)
    (hmem : (key, prs) ∈ l) (hsc : keyScore m des prs = .error e) :
    ∀ res, evalKeys m des pos l ≠ .ok res := by
  induction l with
  | nil => cases hmem
  | cons kp0 rest ih =>
    rcases kp0 with ⟨key2, prs2⟩
    intro res h
    simp only [evalKeys, bind, Except.bind] at h
    rcases List.mem_cons.mp hmem with heq | hmem2
    · cases heq
      rw [hsc] at h
      cases h
    · cases hsc2 : keyScore m des prs2 with
      | error e2 => rw [hsc2] at h; cases h
      | ok sc =>
        rw [hsc2] at h
        cases ht : evalKeys m des pos rest with
        | error e3 => rw [ht] at h; cases h
        | ok tail => exact ih hmem2 tail ht

/-- Concrete descriptor entry used in witnesses. -/
def entA : SEntry :=
  ⟨"p", "q", "l", "hA", "1abc_2", "1abc", "P1", none⟩

/-- Concrete descriptor entry used in witnesses. -/
def entB : SEntry :=
  ⟨"p", "q", "l", "hB", "2xyz_3", "2xyz", "P2", none⟩

/-- Concrete descriptor list used in witnesses. -/
def desAB : List SEntry := [entA, entB]

/-- A concrete metadata data line: codes `1ABC_2` (uniprot `P1`) and
`2XYZ_3` (uniprot `P2`), class label 1, trailing newline as kept by
`readlines`. -/
def lineAB : String := "1ABC_2\t-\tP1\t-\t-\t2XYZ_3\t-\tP2\t1\n"

/-- The same protein pair with the two sides swapped and class label 0. -/
def lineBA0 : String := "2XYZ_3\t-\tP2\t-\t-\t1ABC_2\t-\tP1\t0\n"

/-- The same protein pair with the two sides swapped and class label 1. -/
def lineBA1 : String := "2XYZ_3\t-\tP2\t-\t-\t1ABC_2\t-\tP1\t1\n"

/-- A matcher whose every score is NaN. -/
def mNaN : Matcher := fun _ _ _ => PyFloat.nan

/-- A matcher whose every score is the finite value 1. -/
def mOne : Matcher := fun _ _ _ => PyFloat.fin 1

/-- C1: for every protein-pair key processed by `evaluate_matching`, the
aggregated score recorded for the key (the `keyScore` of its bucket,
which is what `evalKeys` stores in the result triple of the key) is the
maximum over the finite values among the matcher scores selected for the
key's structure-index pairs, non-finite values being excluded before the
maximum; in particular selected scores `[0.2, NaN, 0.9]` aggregate
to `0.9`. -/
theorem score_agg_max_of_finite (matcher : Matcher) (des : List SEntry)
    (prs : List (Nat × Nat)) (q : ℚ)
    (h : keyScore matcher des prs = .ok q) :
    (PyFloat.fin q ∈ rawSelScores matcher des prs
      ∧ ∀ x : ℚ, PyFloat.fin x ∈ rawSelScores matcher des prs → x ≤ q)
    ∧ (∀ lines st res, processLines (targetDict des) lines = .ok st →
        evaluate_matching des lines matcher = .ok res →
        ∀ k kp, st.prot_pairs.get? k = some kp →
          ∃ sc, keyScore matcher des kp.2 = .ok sc ∧
            res.get? k = some (kp.1, (findVal kp.1 st.prot_positives).getD false, sc))
    ∧ pyMax (finiteValues [PyFloat.fin (mkRat 1 5), PyFloat.nan, PyFloat.fin (mkRat 9 10)])
        = .ok (mkRat 9 10) := by
  refine ⟨?_, ?_, by decide⟩
  · simp only [keyScore] at h
    rcases pyMax_ok _ _ h with ⟨hmem, hle⟩
    exact ⟨(mem_finiteValues _ _).mp hmem,
      fun x hx => hle x ((mem_finiteValues _ _).mpr hx)⟩
  · intro lines st res h1 h2 k kp hk
    simp only [evaluate_matching, bind, Except.bind, h1] at h2
    exact (evalKeys_ok _ _ _ _ _ h2).2 k kp hk

/-- Witness for C1 at a concrete input. -/
theorem score_agg_max_of_finite_witness :
    PyFloat.fin 1 ∈ rawSelScores mOne desAB [(0, 1)]
    ∧ pyMax (finiteValues [PyFloat.fin (mkRat 1 5), PyFloat.nan, PyFloat.fin (mkRat 9 10)])
        = .ok (mkRat 9 10) :=
  ⟨(score_agg_max_of_finite mOne desAB [(0, 1)] 1 (by decide)).1.1,
   (score_agg_max_of_finite mOne desAB [(0, 1)] 1 (by decide)).2.2⟩

/-- The pocket path as the spec's words prescribe it (PDB id = first 4
characters of the code, site index = the digit in the 5th character,
i.e. character index 4).  Declared only to compare the claim's wording
with the source, which uses character index 5. -/
def specClaimPocket (root code5 : String) : Except String String := do
  let c ← pyCharAt code5 4
  let n ← pyIntChar c
  .ok (root ++ "/" ++ pyTake code5 4 ++ "/" ++ pyTake code5 4 ++ "_site_"
    ++ toString n ++ ".pdb")

/-- C3 counterexample: on the code `1abc32` the source derives the site
index from character index 5 (the digit 2, the sixth character), not
from the 5th character (the digit 3), so the claim's template disagrees
with the derived path. -/
theorem path_fifth_char_counterexample :
    (entryFor "R" "N" ("1abc32", "P9")).map SEntry.pocket = .ok "R/1abc/1abc_site_2.pdb"
    ∧ specClaimPocket "R" "1abc32" = .ok "R/1abc/1abc_site_3.pdb"
    ∧ ("R/1abc/1abc_site_2.pdb" : String) ≠ "R/1abc/1abc_site_3.pdb" :=
  ⟨by decide, by decide, by decide⟩

/-- C3 amended: for every `(code, uniprot)` tuple whose code carries an
ASCII digit at character index 5 (its sixth character), the derived
protein, pocket, ligand and featurized-protein paths follow the
documented templates exactly, with the first 4 characters of the code as
the PDB id and the digit at index 5 as the site/ligand index. -/
theorem path_derivation_sixth_char (root npz code5 uni : String) (c : Char)
    (hc : code5.data.get? 5 = some c) (hd : c.isDigit = true) :
    entryFor root npz (code5, uni) = .ok {
      protein := root ++ "/" ++ pyTake code5 4 ++ "/" ++ pyTake code5 4 ++ "_clean.pdb"
      pocket := root ++ "/" ++ pyTake code5 4 ++ "/" ++ pyTake code5 4 ++ "_site_"
        ++ toString (c.toNat - 48) ++ ".pdb"
      ligand := root ++ "/" ++ pyTake code5 4 ++ "/" ++ pyTake code5 4 ++ "_lig_"
        ++ toString (c.toNat - 48) ++ ".pdb"
      protein_htmd := npz ++ "/" ++ pyTake code5 4 ++ "/" ++ pyTake code5 4 ++ "_clean.npz"
      code5 := code5
      code := pyTake code5 4
      uniprot := uni
      seqclust := none } := by
  simp only [entryFor, bind, Except.bind, pyCharAt, hc, pyIntChar, hd, if_true]

/-- Witness for the amended C3 at a concrete input. -/
theorem path_derivation_sixth_char_witness :
    entryFor "R" "N" ("1abc_2", "P1") = .ok {
      protein := "R" ++ "/" ++ pyTake "1abc_2" 4 ++ "/" ++ pyTake "1abc_2" 4 ++ "_clean.pdb"
      pocket := "R" ++ "/" ++ pyTake "1abc_2" 4 ++ "/" ++ pyTake "1abc_2" 4 ++ "_site_"
        ++ toString (Char.toNat (Char.ofNat 50) - 48) ++ ".pdb"
      ligand := "R" ++ "/" ++ pyTake "1abc_2" 4 ++ "/" ++ pyTake "1abc_2" 4 ++ "_lig_"
        ++ toString (Char.toNat (Char.ofNat 50) - 48) ++ ".pdb"
      protein_htmd := "N" ++ "/" ++ pyTake "1abc_2" 4 ++ "/" ++ pyTake "1abc_2" 4 ++ "_clean.npz"
      code5 := "1abc_2"
      code := pyTake "1abc_2" 4
      uniprot := "P1"
      seqclust := none } :=
  path_derivation_sixth_char "R" "N" "1abc_2" "P1" (Char.ofNat 50) (by decide) (by decide)

/-- C4: for a key all of whose selected matcher scores are non-finite,
`max` is taken over an empty sequence: the per-key aggregation raises
`ValueError` and `evaluate_matching` does not return a result. -/
theorem empty_scores_error (matcher : Matcher) (des : List SEntry)
    (lines : List String) (st : EvalState) (key : String × String)
    (prs : List (Nat × Nat))
    (h1 : processLines (targetDict des) lines = .ok st)
    (h2 : (key, prs) ∈ st.prot_pairs)
    (h3 : finiteValues (rawSelScores matcher des prs) = []) :
    keyScore matcher des prs = .error "ValueError: max() arg is an empty sequence"
    ∧ ∀ res, evaluate_matching des lines matcher ≠ .ok res := by
  have hks : keyScore matcher des prs
      = .error "ValueError: max() arg is an empty sequence" := by
    simp only [keyScore, h3, pyMax]
  refine ⟨hks, fun res h => ?_⟩
  simp only [evaluate_matching, bind, Except.bind, h1] at h
  exact evalKeys_not_ok matcher des st.prot_positives st.prot_pairs key prs _ h2 hks res h

/-- Witness for C4 at a concrete input: one data line, both codes
present, matcher returning NaN everywhere. -/
theorem empty_scores_error_witness :
    keyScore mNaN desAB [(0, 1)] = .error "ValueError: max() arg is an empty sequence"
    ∧ evaluate_matching desAB ["h1", "h2", lineAB] mNaN ≠ .ok [] :=
  ⟨(empty_scores_error mNaN desAB ["h1", "h2", lineAB]
      ⟨[(("P1", "P2"), [(0, 1)])], [(("P1", "P2"), true)]⟩ ("P1", "P2") [(0, 1)]
      (by decide) (by decide) (by decide)).1,
   (empty_scores_error mNaN desAB ["h1", "h2", lineAB]
      ⟨[(("P1", "P2"), [(0, 1)])], [(("P1", "P2"), true)]⟩ ("P1", "P2") [(0, 1)]
      (by decide) (by decide) (by decide)).2 []⟩

/-- C6: with the cluster-fitting option enabled the manifest builder does
not annotate entries with their own code's cluster: it crashes with
`TypeError` on any non-empty metadata (the source indexes the set's
`(code, uniprot)` tuples with the string key `'code5'`, and the per-entry
line `entry['seqclust'] = code5_to_seqclust['code5']` looks up the
literal string `'code5'` rather than the entry's code); the same input
succeeds with the option disabled. -/
theorem fit_clusters_code_bug :
    get_structures "R" "N" ["h1", "h2", lineAB] true
      = .error "TypeError: tuple indices must be integers or slices, not str"
    ∧ get_structures "R" "N" ["h1", "h2", lineAB] false = .ok [
      { protein := "R/1abc/1abc_clean.pdb", pocket := "R/1abc/1abc_site_2.pdb",
        ligand := "R/1abc/1abc_lig_2.pdb", protein_htmd := "N/1abc/1abc_clean.npz",
        code5 := "1abc_2", code := "1abc", uniprot := "P1", seqclust := none },
      { protein := "R/2xyz/2xyz_clean.pdb", pocket := "R/2xyz/2xyz_site_3.pdb",
        ligand := "R/2xyz/2xyz_lig_3.pdb", protein_htmd := "N/2xyz/2xyz_clean.npz",
        code5 := "2xyz_3", code := "2xyz", uniprot := "P2", seqclust := none }] :=
  ⟨by decide, by decide⟩

/-- C2: inside `evaluate_matching`, a data line whose codes are both in
`target_dict` and whose key was already recorded with a different
boolean label makes the evaluator fail with `AssertionError`; when the
labels agree (or the key is fresh) the key's stored label is
`cls == 1`.  Stated on a metadata file of two header lines and two data
lines mapping to the same key. -/
theorem label_mismatch_asserts (des : List SEntry) (hd1 hd2 l1 l2 : String)
    (p1 p2 : ParsedLine) (i1 i2 j1 j2 : Nat)
    (e1 : parseLine l1 = .ok p1) (e2 : parseLine l2 = .ok p2)
    (f1 : targetDict des p1.pdb1 = some i1) (f2 : targetDict des p1.pdb2 = some i2)
    (g1 : targetDict des p2.pdb1 = some j1) (g2 : targetDict des p2.pdb2 = some j2)
    (hk : orderedKey p2.id1 p2.id2 = orderedKey p1.id1 p1.id2) :
    ((p1.cls == 1) ≠ (p2.cls == 1) →
      processLines (targetDict des) [hd1, hd2, l1, l2] = .error "AssertionError")
    ∧ ((p1.cls == 1) = (p2.cls == 1) →
      ∃ st, processLines (targetDict des) [hd1, hd2, l1, l2] = .ok st
        ∧ findVal (orderedKey p1.id1 p1.id2) st.prot_positives
            = some (p1.cls == 1)) := by
  have hstep1 : procLine (targetDict des) ⟨[], []⟩ l1
      = .ok ⟨[(orderedKey p1.id1 p1.id2, [(i1, i2)])],
             [(orderedKey p1.id1 p1.id2, p1.cls == 1)]⟩ := by
    simp [procLine, bind, Except.bind, e1, f1, f2, findVal, updAssoc]
  constructor
  · intro hne
    simp only [processLines, List.drop, processLinesAux, bind, Except.bind, hstep1]
    simp [procLine, bind, Except.bind, e2, g1, g2, hk, findVal, updAssoc, hne]
  · intro hagree
    refine ⟨⟨updAssoc [(orderedKey p1.id1 p1.id2, [(i1, i2)])]
        (orderedKey p1.id1 p1.id2) (j1, j2),
        [(orderedKey p1.id1 p1.id2, p1.cls == 1)]⟩, ?_, ?_⟩
    · simp only [processLines, List.drop, processLinesAux, bind, Except.bind, hstep1]
      simp [procLine, bind, Except.bind, e2, g1, g2, hk, findVal, updAssoc, hagree]
    · simp [findVal]

/-- Witness for C2 at a concrete input: the same protein pair appearing
once with class 1 and once (sides swapped) with class 0. -/
theorem label_mismatch_asserts_witness :
    processLines (targetDict desAB) ["h1", "h2", lineAB, lineBA0]
      = .error "AssertionError" :=
  (label_mismatch_asserts desAB "h1" "h2" lineAB lineBA0
      ⟨"1abc_2", "P1", "2xyz_3", "P2", 1⟩ ⟨"2xyz_3", "P2", "1abc_2", "P1", 0⟩
      0 1 1 0 (by decide) (by decide) (by decide) (by decide) (by decide) (by decide)
      (by decide)).1 (by decide)

theorem charLt_asymm (a b : Char) (h : charLt a b = true) : charLt b a = false := by
  simp only [charLt, decide_eq_true_eq] at h
  simp only [charLt, decide_eq_false_iff_not]
  omega

theorem charLt_conn (a b : Char) (h1 : charLt a b = false) (h2 : charLt b a = false) :
    a = b := by
  simp only [charLt, decide_eq_false_iff_not, Nat.not_lt] at h1 h2
  have h : a.toNat = b.toNat := le_antisymm h2 h1
  unfold Char.toNat at h
  exact Char.eq_of_val_eq (UInt32.eq_of_val_eq (Fin.val_injective h))

theorem charListLt_asymm (as bs : List Char) (h : charListLt as bs = true) :
    charListLt bs as = false := by
  induction as generalizing bs with
  | nil =>
    cases bs with
    | nil => simp [charListLt] at h
    | cons b bs2 => rfl
  | cons a as2 ih =>
    cases bs with
    | nil => simp [charListLt] at h
    | cons b bs2 =>
      simp only [charListLt] at h ⊢
      cases hab : charLt a b with
      | true =>
        rw [charLt_asymm a b hab]
        simp [hab]
      | false =>
        rw [hab] at h
        simp only [Bool.false_eq_true, if_false] at h
        cases hba : charLt b a with
        | true => rw [hba] at h; simp at h
        | false =>
          rw [hba] at h
          simp only [Bool.false_eq_true, if_false] at h ⊢
          exact ih bs2 h

theorem charListLt_conn (as bs : List Char) (h1 : charListLt as bs = false)
    (h2 : charListLt bs as = false) : as = bs := by
  induction as generalizing bs with
  | nil =>
    cases bs with
    | nil => rfl
    | cons b bs2 => simp [charListLt] at h1
  | cons a as2 ih =>
    cases bs with
    | nil => simp [charListLt] at h2
    | cons b bs2 =>
      simp only [charListLt] at h1 h2
      cases hab : charLt a b with
      | true => rw [hab] at h1; simp at h1
      | false =>
        cases hba : charLt b a with
        | true => rw [hba] at h2; simp at h2
        | false =>
          rw [hab, hba] at h1
          rw [hba, hab] at h2
          simp only [Bool.false_eq_true, if_false] at h1 h2
          rw [charLt_conn a b hab hba, ih bs2 h1 h2]

/-- C9: the bucket key of `evaluate_matching` is the lexicographically
ordered pair of UniProt ids, so it is symmetric in its two arguments;
concretely, a pair line and its swapped counterpart accumulate their
index pairs into one bucket with one stored label. -/
theorem key_symmetric :
    (∀ a b : String, orderedKey a b = orderedKey b a)
    ∧ processLines (targetDict desAB) ["h1", "h2", lineAB, lineBA1]
        = .ok ⟨[(("P1", "P2"), [(0, 1), (1, 0)])], [(("P1", "P2"), true)]⟩ := by
  constructor
  · intro a b
    unfold orderedKey pyStrLt
    cases hab : charListLt a.data b.data with
    | true =>
      rw [charListLt_asymm _ _ hab]
      simp
    | false =>
      cases hba : charListLt b.data a.data with
      | true => simp
      | false =>
        have hdata : a.data = b.data := charListLt_conn _ _ hab hba
        have : a = b := by
          cases a
          cases b
          simp only at hdata
          rw [hdata]
        rw [this]
  · decide

theorem pyGet_ok (l : List String) (n : Nat) (t : String) :
    pyGet l n = .ok t ↔ l.get? n = some t := by
  unfold pyGet
  cases h : l.get? n with
  | none => simp
  | some a => simp

theorem lineTuples_ok (line : String) (ts : List (String × String))
    (h : lineTuples line = .ok ts) :
    ∃ t0 t2 t5 t7, (pySplitTab line).get? 0 = some t0
      ∧ (pySplitTab line).get? 2 = some t2
      ∧ (pySplitTab line).get? 5 = some t5
      ∧ (pySplitTab line).get? 7 = some t7
      ∧ ts = [(pyLower t0, t2), (pyLower t5, t7)] := by
  simp only [lineTuples, bind, Except.bind] at h
  cases h0 : pyGet (pySplitTab line) 0 with
  | error e => rw [h0] at h; cases h
  | ok t0 =>
    rw [h0] at h
    cases h2 : pyGet (pySplitTab line) 2 with
    | error e => rw [h2] at h; cases h
    | ok t2 =>
      rw [h2] at h
      cases h5 : pyGet (pySplitTab line) 5 with
      | error e => rw [h5] at h; cases h
      | ok t5 =>
        rw [h5] at h
        cases h7 : pyGet (pySplitTab line) 7 with
        | error e => rw [h7] at h; cases h
        | ok t7 =>
          rw [h7] at h
          cases h
          exact ⟨t0, t2, t5, t7, (pyGet_ok _ _ _).mp h0, (pyGet_ok _ _ _).mp h2,
            (pyGet_ok _ _ _).mp h5, (pyGet_ok _ _ _).mp h7, rfl⟩

theorem entryFor_fields (root npz : String) (t : String × String) (e : SEntry)
    (h : entryFor root npz t = .ok e) : e.code5 = t.1 ∧ e.uniprot = t.2 := by
  cases hc : pyCharAt t.1 5 with
  | error e2 => simp only [entryFor, bind, Except.bind, hc] at h; cases h
  | ok c =>
    simp only [entryFor, bind, Except.bind, hc] at h
    cases hn : pyIntChar c with
    | error e2 => simp only [hn] at h; cases h
    | ok n =>
      simp only [hn] at h
      cases h
      exact ⟨rfl, rfl⟩

/-- C5: every data line of the metadata file contributes exactly the two
`(code, uniprot)` tuples built from fields 0/2 and 5/7 of its tab-split
form to the deduplicating set, and the manifest contains exactly one
structure entry per distinct tuple of that set (in particular the set is
duplicate-free, an element belongs to it exactly when some data line
contributes it, and the k-th entry is built from the k-th tuple). -/
theorem two_entries_per_line_dedup (root npz : String) (lines : List String)
    (s : List (String × String)) (es : List SEntry)
    (hs : vertexPdbs lines = .ok s)
    (he : get_structures root npz lines false = .ok es) :
    (∀ line ∈ lines.drop 2, ∀ ts, lineTuples line = .ok ts →
      ts.length = 2
      ∧ ∀ t0 t2 t5 t7, (pySplitTab line).get? 0 = some t0 →
          (pySplitTab line).get? 2 = some t2 →
          (pySplitTab line).get? 5 = some t5 →
          (pySplitTab line).get? 7 = some t7 →
          ts = [(pyLower t0, t2), (pyLower t5, t7)])
    ∧ s.Nodup
    ∧ (∀ t, t ∈ s ↔ ∃ line ∈ lines.drop 2, ∃ ts, lineTuples line = .ok ts ∧ t ∈ ts)
    ∧ es.length = s.length
    ∧ (∀ k t, s.get? k = some t →
        ∃ e, es.get? k = some e ∧ e.code5 = t.1 ∧ e.uniprot = t.2) := by
  have hent : entriesFor root npz s = .ok es := by
    simp only [get_structures, bind, Except.bind, hs, Bool.false_and,
      Bool.false_eq_true, if_false] at he
    exact he
  refine ⟨?_, ?_, ?_, ?_, ?_⟩
  · intro line _ ts hts
    rcases lineTuples_ok line ts hts with ⟨t0, t2, t5, t7, h0, h2, h5, h7, hts2⟩
    refine ⟨by rw [hts2]; rfl, fun u0 u2 u5 u7 g0 g2 g5 g7 => ?_⟩
    rw [h0] at g0
    rw [h2] at g2
    rw [h5] at g5
    rw [h7] at g7
    cases g0
    cases g2
    cases g5
    cases g7
    exact hts2
  · exact vertexPdbsAux_nodup _ _ _ List.nodup_nil hs
  · intro t
    rw [vertexPdbsAux_mem _ _ _ hs t]
    simp
  · exact (entriesFor_ok _ _ _ _ hent).1
  · intro k t hk
    rcases (entriesFor_ok _ _ _ _ hent).2 k t hk with ⟨e, hke, hfe⟩
    rcases entryFor_fields _ _ _ _ hfe with ⟨hc, hu⟩
    exact ⟨e, hke, hc, hu⟩

/-- Witness for C5 at a concrete input: two data lines naming the same
two structures, deduplicated to two tuples and two entries. -/
theorem two_entries_per_line_dedup_witness :
    ([("1abc_2", "P1"), ("2xyz_3", "P2")] : List (String × String)).Nodup
    ∧ ((("1abc_2", "P1") : String × String)
        ∈ ([("1abc_2", "P1"), ("2xyz_3", "P2")] : List (String × String)) ↔
      ∃ line ∈ (["h1", "h2", lineAB, lineBA1] : List String).drop 2,
        ∃ ts, lineTuples line = .ok ts ∧ (("1abc_2", "P1") : String × String) ∈ ts) :=
  ⟨(two_entries_per_line_dedup "R" "N" ["h1", "h2", lineAB, lineBA1]
      [("1abc_2", "P1"), ("2xyz_3", "P2")]
      [{ protein := "R/1abc/1abc_clean.pdb", pocket := "R/1abc/1abc_site_2.pdb",
         ligand := "R/1abc/1abc_lig_2.pdb", protein_htmd := "N/1abc/1abc_clean.npz",
         code5 := "1abc_2", code := "1abc", uniprot := "P1", seqclust := none },
       { protein := "R/2xyz/2xyz_clean.pdb", pocket := "R/2xyz/2xyz_site_3.pdb",
         ligand := "R/2xyz/2xyz_lig_3.pdb", protein_htmd := "N/2xyz/2xyz_clean.npz",
         code5 := "2xyz_3", code := "2xyz", uniprot := "P2", seqclust := none }]
      (by decide) (by decide)).2.1,
   (two_entries_per_line_dedup "R" "N" ["h1", "h2", lineAB, lineBA1]
      [("1abc_2", "P1"), ("2xyz_3", "P2")]
      [{ protein := "R/1abc/1abc_clean.pdb", pocket := "R/1abc/1abc_site_2.pdb",
         ligand := "R/1abc/1abc_lig_2.pdb", protein_htmd := "N/1abc/1abc_clean.npz",
         code5 := "1abc_2", code := "1abc", uniprot := "P1", seqclust := none },
       { protein := "R/2xyz/2xyz_clean.pdb", pocket := "R/2xyz/2xyz_site_3.pdb",
         ligand := "R/2xyz/2xyz_lig_3.pdb", protein_htmd := "N/2xyz/2xyz_clean.npz",
         code5 := "2xyz_3", code := "2xyz", uniprot := "P2", seqclust := none }]
      (by decide) (by decide)).2.2.1 ("1abc_2", "P1")⟩

/-- C7: the per-entry preprocessing worker catches any exception of its
body (directory creation, download, pocket extraction), logs a warning
naming the structure code together with the exception detail, and still
returns the entry's code; mapping the worker over the whole entry list
therefore yields every entry's code, so no entry's failure aborts the
batch. -/
theorem worker_catches_and_continues (body : SEntry → Except String Unit)
    (entry : SEntry) :
    (download_pdb_and_extract_pocket body entry).1 = entry.code
    ∧ (∀ e, body entry = .error e →
        (download_pdb_and_extract_pocket body entry).2
          = ["WARNING: NOT FOUND " ++ entry.code, "EXCEPTION: " ++ e])
    ∧ (∀ structures : List SEntry,
        structures.map (fun s => (download_pdb_and_extract_pocket body s).1)
          = structures.map SEntry.code) := by
  refine ⟨?_, ?_, ?_⟩
  · unfold download_pdb_and_extract_pocket
    cases body entry <;> rfl
  · intro e he
    simp [download_pdb_and_extract_pocket, he]
  · intro structures
    apply List.map_congr_left
    intro s _
    unfold download_pdb_and_extract_pocket
    cases body s <;> rfl

/-- A concrete always-failing worker body. -/
def bodyFail : SEntry → Except String Unit := fun _ => .error "boom"

/-- Witness for C7 at a concrete input with a failing body. -/
theorem worker_catches_and_continues_witness :
    (download_pdb_and_extract_pocket bodyFail entA).1 = entA.code
    ∧ (download_pdb_and_extract_pocket bodyFail entA).2
        = ["WARNING: NOT FOUND " ++ entA.code, "EXCEPTION: " ++ "boom"] :=
  ⟨(worker_catches_and_continues bodyFail entA).1,
   (worker_catches_and_continues bodyFail entA).2.1 "boom" rfl⟩

/-- C8: `preprocess_once` invokes the featurizer exactly once — as the
last event of its trace, after every per-entry worker — over the full
entry list with `skip_existing=True`; and (featurizer contract modelled
from the spec) with that flag a repeated run does no featurization work
for entries whose cached feature file already exists. -/
theorem featurize_once_after_workers (body : SEntry → Except String Unit)
    (structures : List SEntry) (cache : List String) :
    (preprocess_trace body structures).filter isFeaturize
      = [PEvent.featurize structures true]
    ∧ (preprocess_trace body structures).getLast?
      = some (PEvent.featurize structures true)
    ∧ (∀ ev ∈ (preprocess_trace body structures).dropLast, isFeaturize ev = false)
    ∧ ((∀ e ∈ structures, e.protein_htmd ∈ cache) →
        htmd_featurizer_work structures cache true = []) := by
  have hworkers : (structures.map (fun s =>
      PEvent.workerDone (download_pdb_and_extract_pocket body s).1
        (download_pdb_and_extract_pocket body s).2)).filter isFeaturize = [] := by
    rw [List.filter_eq_nil_iff]
    intro ev hev
    rcases List.mem_map.mp hev with ⟨s, _, rfl⟩
    simp [isFeaturize]
  refine ⟨?_, ?_, ?_, ?_⟩
  · unfold preprocess_trace
    rw [List.filter_append, hworkers]
    rfl
  · exact List.getLast?_concat _
  · unfold preprocess_trace
    rw [List.dropLast_concat]
    intro ev hev
    rcases List.mem_map.mp hev with ⟨s, _, rfl⟩
    rfl
  · intro hcached
    rw [htmd_featurizer_work, List.filter_eq_nil_iff]
    intro e he
    simpa using hcached e he

/-- Witness for C8 at a concrete input with the cache already holding
the entry's feature file. -/
theorem featurize_once_after_workers_witness :
    (preprocess_trace bodyFail [entA]).filter isFeaturize
      = [PEvent.featurize [entA] true]
    ∧ htmd_featurizer_work [entA] ["hA"] true = [] :=
  ⟨(featurize_once_after_workers bodyFail [entA] ["hA"]).1,
   (featurize_once_after_workers bodyFail [entA] ["hA"]).2.2.2 (by decide)⟩

/-- C10: both the manifest builder and the evaluator lowercase the PDB
codes read from the metadata file before using them: the tuples put into
the deduplicating set and the parsed codes looked up in `target_dict`
are the lowercased fields 0 and 5, so two lines whose code fields differ
only by letter case produce identical tuples, identical parsed lines,
and identical manifests. -/
theorem codes_lowercased (l1 l2 : String)
    (a0 b0 a5 b5 t1 t2 t3 t4 t6 t7 t8 : String)
    (h1 : pySplitTab l1 = [a0, t1, t2, t3, t4, a5, t6, t7, t8])
    (h2 : pySplitTab l2 = [b0, t1, t2, t3, t4, b5, t6, t7, t8])
    (e0 : pyLower a0 = pyLower b0) (e5 : pyLower a5 = pyLower b5) :
    lineTuples l1 = .ok [(pyLower a0, t2), (pyLower a5, t7)]
    ∧ lineTuples l1 = lineTuples l2
    ∧ parseLine l1 = parseLine l2
    ∧ (∀ pl, parseLine l1 = .ok pl → pl.pdb1 = pyLower a0 ∧ pl.pdb2 = pyLower a5)
    ∧ (∀ root npz fit, get_structures root npz ["hdr1", "hdr2", l1] fit
        = get_structures root npz ["hdr1", "hdr2", l2] fit) := by
  have ht1 : lineTuples l1 = .ok [(pyLower a0, t2), (pyLower a5, t7)] := by
    simp [lineTuples, bind, Except.bind, h1, pyGet, List.get?]
  have ht2 : lineTuples l2 = .ok [(pyLower b0, t2), (pyLower b5, t7)] := by
    simp [lineTuples, bind, Except.bind, h2, pyGet, List.get?]
  have ht12 : lineTuples l1 = lineTuples l2 := by
    rw [ht1, ht2, e0, e5]
  have hlast : ([a0, t1, t2, t3, t4, a5, t6, t7, t8] : List String).getLastD "" = t8 := rfl
  have hp1 : parseLine l1 = parseLine l2 := by
    cases hc : pyInt t8 with
    | error e =>
      simp [parseLine, bind, Except.bind, h1, h2, pyGet, List.get?, hlast, hc]
    | ok c =>
      simp [parseLine, bind, Except.bind, h1, h2, pyGet, List.get?, hlast, hc, e0, e5]
  refine ⟨ht1, ht12, hp1, ?_, ?_⟩
  · intro pl hpl
    cases hc : pyInt t8 with
    | error e =>
      simp [parseLine, bind, Except.bind, h1, pyGet, List.get?, hlast, hc] at hpl
    | ok c =>
      simp only [parseLine, bind, Except.bind, h1, pyGet, List.get?, hlast, hc] at hpl
      cases hpl
      exact ⟨rfl, rfl⟩
  · intro root npz fit
    simp only [get_structures, vertexPdbs, bind, Except.bind,
      List.drop_succ_cons, List.drop_zero, vertexPdbsAux, ht12]

/-- The data line `lineAB` with its two code fields already lowercase. -/
def lineABlc : String := "1abc_2\t-\tP1\t-\t-\t2xyz_3\t-\tP2\t1\n"

/-- Witness for C10 at a concrete input: an uppercase-coded line and its
lowercase-coded variant. -/
theorem codes_lowercased_witness :
    lineTuples lineAB = .ok [(pyLower "1ABC_2", "P1"), (pyLower "2XYZ_3", "P2")]
    ∧ parseLine lineAB = parseLine lineABlc :=
  ⟨(codes_lowercased lineAB lineABlc "1ABC_2" "1abc_2" "2XYZ_3" "2xyz_3"
      "-" "P1" "-" "-" "-" "P2" "1\n"
      (by decide) (by decide) (by decide) (by decide)).1,
   (codes_lowercased lineAB lineABlc "1ABC_2" "1abc_2" "2XYZ_3" "2xyz_3"
      "-" "P1" "-" "-" "-" "P2" "1\n"
      (by decide) (by decide) (by decide) (by decide)).2.2.1⟩

end Vertex
